import Mathlib

/-!
Verification development for the finstrat Signal Scoring Engine.

Shallow embedding of the repository's Python sources:
  - analysis.py   : calculate_metrics, score_stock, get_top_picks
  - database.py   : save_pick, save_stock_data

Modelling conventions, shared by all definitions below:
  - pandas/numpy float cells are modelled by `PVal` (NaN, +inf, -inf or a
    rational number); IEEE comparison semantics (every comparison with NaN is
    false, NaN is not equal to itself) and IEEE arithmetic on specials are
    transcribed on `PVal`.
  - a dataframe row handed to `score_stock` is a `Row` whose fields are
    `Option PVal`: `none` models an absent column, so that an item access
    `current[name]` can raise (modelled with `Except String`), while
    `current.get(name, default)` substitutes the default.  Python scalar
    "reasons" returned by the short-circuit branches are modelled as
    singleton lists so that the result type is uniform.
  - SQLite tables are modelled as Lean lists of records, in insertion order.
  - timestamps are natural numbers (only their ordering matters).
-/

namespace Finstrat

/-- Value of one dataframe cell: an IEEE-754-style scalar with NaN and the two
infinities, with the finite payload kept exact as a rational. -/
inductive PVal where
  | nan : PVal
  | pinf : PVal
  | ninf : PVal
  | num : Rat → PVal
deriving DecidableEq

namespace PVal

/-- IEEE `<`: any comparison involving NaN is false. -/
def lt : PVal → PVal → Bool
  | nan, _ => false
  | _, nan => false
  | ninf, ninf => false
  | ninf, _ => true
  | _, ninf => false
  | pinf, _ => false
  | num _, pinf => true
  | num a, num b => decide (a < b)

/-- IEEE `<=`: any comparison involving NaN is false. -/
def le : PVal → PVal → Bool
  | nan, _ => false
  | _, nan => false
  | ninf, _ => true
  | _, ninf => false
  | _, pinf => true
  | pinf, _ => false
  | num a, num b => decide (a ≤ b)

/-- IEEE `>`. -/
def gt (a b : PVal) : Bool := lt b a

/-- IEEE `>=`. -/
def ge (a b : PVal) : Bool := le b a

/-- IEEE `==`: NaN is not equal to anything, including itself. -/
def beq : PVal → PVal → Bool
  | num a, num b => decide (a = b)
  | pinf, pinf => true
  | ninf, ninf => true
  | _, _ => false

/-- IEEE negation. -/
def neg : PVal → PVal
  | nan => nan
  | pinf => ninf
  | ninf => pinf
  | num a => num (-a)

/-- IEEE addition. -/
def add : PVal → PVal → PVal
  | nan, _ => nan
  | _, nan => nan
  | pinf, ninf => nan
  | ninf, pinf => nan
  | pinf, _ => pinf
  | _, pinf => pinf
  | ninf, _ => ninf
  | _, ninf => ninf
  | num a, num b => num (a + b)

/-- IEEE subtraction. -/
def sub (a b : PVal) : PVal := add a (neg b)

/-- IEEE multiplication. -/
def mul : PVal → PVal → PVal
  | nan, _ => nan
  | _, nan => nan
  | num a, num b => num (a * b)
  | num a, pinf => if 0 < a then pinf else if a < 0 then ninf else nan
  | pinf, num a => if 0 < a then pinf else if a < 0 then ninf else nan
  | num a, ninf => if 0 < a then ninf else if a < 0 then pinf else nan
  | ninf, num a => if 0 < a then ninf else if a < 0 then pinf else nan
  | pinf, pinf => pinf
  | ninf, ninf => pinf
  | pinf, ninf => ninf
  | ninf, pinf => ninf

/-- IEEE division (numpy semantics: `x / 0` is `nan` when `x = 0` and a signed
infinity otherwise). -/
def div : PVal → PVal → PVal
  | nan, _ => nan
  | _, nan => nan
  | num a, num b =>
      if b = 0 then (if a = 0 then nan else if 0 < a then pinf else ninf)
      else num (a / b)
  | num _, pinf => num 0
  | num _, ninf => num 0
  | pinf, num b => if b < 0 then ninf else pinf
  | ninf, num b => if b < 0 then pinf else ninf
  | pinf, pinf => nan
  | pinf, ninf => nan
  | ninf, pinf => nan
  | ninf, ninf => nan

/-- Is the value a finite number? -/
def isNum : PVal → Bool
  | num _ => true
  | _ => false

end PVal

/-- The `fillna(0)` cell transformation: NaN becomes 0, every other value
(including the infinities, which `fillna` does not touch) is kept. -/
def fill0 : PVal → PVal
  | PVal.nan => PVal.num 0
  | v => v

/-- Allow-list of conservative instruments (analysis.py line 6). -/
def CONSERVATIVE_TICKERS : List String :=
  ["PG", "KO", "PEP", "WMT", "JNJ", "PFE", "XOM", "CVX", "JPM", "BAC"]

/-- Allow-list of moonshot instruments (analysis.py line 7). -/
def MOONSHOT_TICKERS : List String :=
  ["COIN", "PLTR", "DKNG", "ROKU", "SQ", "ARKK", "NVDA", "TSLA", "AMD"]

/-- Index tickers (analysis.py line 8). -/
def INDICES : List String := ["SPY", "QQQ", "IWM"]

/-- The last dataframe row as read by `score_stock` (`df.iloc[-1]`).  Each
field is one column's cell; `none` models a column that is absent from the
frame, in which case the Python item access raises `KeyError`. -/
structure Row where
  close : Option PVal
  sma50 : Option PVal
  sma200 : Option PVal
  adx : Option PVal
  rsi : Option PVal
  macd : Option PVal
  macdSignal : Option PVal
  volatility : Option PVal
  rvol : Option PVal
  atr : Option PVal
deriving DecidableEq

/-- Row builder used in the statements below: the four trend columns are
present with the given cells, the remaining columns are arbitrary. -/
def mkRow (c s5 s2 a : PVal) (ro mo so vo rv ao : Option PVal) : Row :=
  { close := some c, sma50 := some s5, sma200 := some s2, adx := some a,
    rsi := ro, macd := mo, macdSignal := so,
    volatility := vo, rvol := rv, atr := ao }

/-- Python item access `current[name]`: raises `KeyError` when the column is
absent. -/
def col (v : Option PVal) (name : String) : Except String PVal :=
  match v with
  | some x => Except.ok x
  | none => Except.error ("KeyError: " ++ name)

/-- ADX contribution to the trend filter (analysis.py lines 98-102): strict
`> 25` bonus, `< 20` penalty.  The reason tag's numeric interpolation of the
ADX value is elided. -/
def adxAdj (a : PVal) : Int :=
  if PVal.gt a (PVal.num 25) then 10 else if PVal.lt a (PVal.num 20) then -5 else 0

/-- The reason tag appended when ADX exceeds 25 (interpolated value elided). -/
def adxReasons (a : PVal) : List String :=
  if PVal.gt a (PVal.num 25) then ["Strong Trend (ADX)"] else []

/-- Pure mirror of the trend filter accumulator `trend_score`
(analysis.py lines 91-102), for a row whose trend cells are present. -/
def trendScore (c s5 s2 a : PVal) : Int :=
  (if PVal.gt c s5 then (if PVal.gt s5 s2 then 20 else 10) else 0) + adxAdj a

/-- Conservative RSI adjustment (analysis.py lines 116-123). -/
def consRsiAdj (r : PVal) : Int :=
  if PVal.ge r (PVal.num 40) && PVal.le r (PVal.num 60) then 20
  else if PVal.lt r (PVal.num 40) then 30
  else if PVal.gt r (PVal.num 70) then -20
  else 0

/-- Reason tags produced by the conservative RSI adjustment. -/
def consRsiReasons (r : PVal) : List String :=
  if PVal.ge r (PVal.num 40) && PVal.le r (PVal.num 60) then ["Fair Value RSI"]
  else if PVal.lt r (PVal.num 40) then ["Oversold Opportunity"]
  else []

/-- Conservative volatility preference (analysis.py lines 126-129), on the
`current.get('VOLATILITY', 0)` cell. -/
def consVolAdj (vo : Option PVal) : Int :=
  if PVal.lt (vo.getD (PVal.num 0)) (PVal.num (3/100)) then 10 else -10

/-- Moonshot relative-volume adjustment (analysis.py lines 141-145), on the
`current.get('RVOL', 1)` cell. -/
def moonRvolAdj (rv : Option PVal) : Int :=
  if PVal.gt (rv.getD (PVal.num 1)) (PVal.num (3/2)) then 25
  else if PVal.gt (rv.getD (PVal.num 1)) (PVal.num (6/5)) then 10
  else 0

/-- Reason tags of the moonshot relative-volume adjustment (interpolated
value elided). -/
def moonRvolReasons (rv : Option PVal) : List String :=
  if PVal.gt (rv.getD (PVal.num 1)) (PVal.num (3/2)) then ["High Inst. Volume"] else []

/-- Moonshot RSI adjustment (analysis.py lines 148-152). -/
def moonRsiAdj (r : PVal) : Int :=
  if PVal.lt (PVal.num 55) r && PVal.lt r (PVal.num 75) then 25
  else if PVal.gt r (PVal.num 80) then -10
  else 0

/-- Reason tags of the moonshot RSI adjustment. -/
def moonRsiReasons (r : PVal) : List String :=
  if PVal.lt (PVal.num 55) r && PVal.lt r (PVal.num 75) then ["Strong Momentum"] else []

/-- Universal below-200-SMA penalty (analysis.py lines 159-160), expressed as
the delta it adds to the score. -/
def univPen (c s200 : PVal) : Int := if PVal.lt c s200 then -20 else 0

/-- Final clamp `min(100, max(0, score))` (analysis.py line 163). -/
def clamp01 (s : Int) : Int := min 100 (max 0 s)

/-- Target-price computation (analysis.py lines 166-174): the ATR cell read
with default `close * 0.02`, the zero-ATR fallback to `close * 0.02`, then
`close + 3 * atr` for moonshot and `close + 1.5 * atr` otherwise. -/
def finTarget (c : PVal) (ao : Option PVal) (isMoon : Bool) : PVal :=
  let atr0 := ao.getD (PVal.mul c (PVal.num (2/100)))
  let atr := if PVal.beq atr0 (PVal.num 0) then PVal.mul c (PVal.num (2/100)) else atr0
  if isMoon then PVal.add c (PVal.mul atr (PVal.num 3))
  else PVal.add c (PVal.mul atr (PVal.num (3/2)))

/-- Tail of `score_stock` shared by every non-short-circuit path
(analysis.py lines 158-176): read `SMA_200`, apply the universal penalty,
clamp, and compute the ATR-based target. -/
def finishScore (current : Row) (c : PVal) (score0 : Int) (reasons : List String)
    (strategy : String) : Except String (Int × PVal × List String) := do
  let s200 ← col current.sma200 "SMA_200"
  pure (clamp01 (score0 + univPen c s200),
        finTarget c current.atr (strategy == "moonshot"),
        reasons)

/-- Body of `score_stock` on the last row (analysis.py lines 85-176).  The
reads of the cells happen in the same order as the Python item accesses, so a
missing column raises at the same program point. -/
def rowScore (current : Row) (ticker strategy : String) :
    Except String (Int × PVal × List String) := do
  let c ← col current.close "close"
  let s50 ← col current.sma50 "SMA_50"
  let ts1 ←
    if PVal.gt c s50 then do
      let s200 ← col current.sma200 "SMA_200"
      pure (if PVal.gt s50 s200 then (20 : Int) else 10)
    else pure (0 : Int)
  let a ← col current.adx "ADX"
  let trend : Int := ts1 + adxAdj a
  let rs0 := adxReasons a
  if strategy == "conservative" then
    if !CONSERVATIVE_TICKERS.contains ticker && !INDICES.contains ticker then
      pure (0, c, ["Not a conservative asset"])
    else do
      let sr ←
        if trend ≥ 20 then do
          let r ← col current.rsi "RSI"
          pure (40 + consRsiAdj r + consVolAdj current.volatility, consRsiReasons r)
        else pure ((0 : Int), ([] : List String))
      finishScore current c sr.1 (rs0 ++ sr.2) strategy
  else if strategy == "moonshot" then
    if !MOONSHOT_TICKERS.contains ticker then
      pure (0, c, ["Not a growth asset"])
    else do
      let s1 : Int := if trend ≥ 10 then 20 else 0
      let s2v := moonRvolAdj current.rvol
      let rs1 := moonRvolReasons current.rvol
      let r ← col current.rsi "RSI"
      let s3 := moonRsiAdj r
      let rs2 := moonRsiReasons r
      let m ← col current.macd "MACD"
      let msig ← col current.macdSignal "MACD_SIGNAL"
      let s4 : Int := if PVal.gt m msig then 10 else 0
      finishScore current c (s1 + s2v + s3 + s4) (rs0 ++ rs1 ++ rs2) strategy
  else
    finishScore current c 0 rs0 strategy

/-- Embedding of `score_stock(df, ticker, strategy)` (analysis.py lines
78-176).  The frame is the list of its rows; `df.empty or len(df) < 50` is the
single length test, and the body runs on `df.iloc[-1]`. -/
def score_stock (rows : List Row) (ticker strategy : String) :
    Except String (Int × PVal × List String) :=
  if rows.length < 50 then Except.ok (0, PVal.num 0, ["Insufficient Data"])
  else
    match rows.getLast? with
    | some current => rowScore current ticker strategy
    | none => Except.error "index out of bounds"

/-! ### Time-Series Store and pick ledger (database.py) -/

/-- One stored OHLCV row of the `stock_prices` table (database.py lines
17-28); the open column is not read anywhere and is omitted. -/
structure Bar where
  ticker : String
  ts : Nat
  high : Rat
  low : Rat
  close : Rat
  volume : Rat
deriving DecidableEq

/-- One incoming provider bar before the ticker column is attached
(`df_reset` in database.py `save_stock_data`). -/
structure RawBar where
  ts : Nat
  high : Rat
  low : Rat
  close : Rat
  volume : Rat
deriving DecidableEq

/-- Attach the ticker column (`df_reset['ticker'] = ticker`). -/
def toBar (t : String) (r : RawBar) : Bar :=
  { ticker := t, ts := r.ts, high := r.high, low := r.low,
    close := r.close, volume := r.volume }

/-- Timestamps stored for one ticker, in table order. -/
def tsListOf (store : List Bar) (t : String) : List Nat :=
  (store.filter (fun b => b.ticker == t)).map (fun b => b.ts)

/-- Maximum of a list of naturals, `none` on the empty list: the
`SELECT MAX(timestamp) ... WHERE ticker = ?` aggregate, whose SQL result is
NULL (falsy in the Python `if last_date:` test) when no row exists. -/
def listMax : List Nat → Option Nat
  | [] => none
  | x :: xs => some (xs.foldl max x)

/-- The per-instrument high watermark. -/
def maxTimestamp (store : List Bar) (t : String) : Option Nat :=
  listMax (tsListOf store t)

/-- Embedding of `save_stock_data(df, ticker)` (database.py lines 79-141)
acting on the `stock_prices` table: read the per-ticker watermark; if one
exists keep only incoming rows with a strictly greater timestamp, otherwise
keep all incoming rows; append the remainder.  The pandas column
renames/drops are bookkeeping on field names and are absorbed by the
structural `RawBar` type. -/
def save_stock_data (df : List RawBar) (ticker : String) (store : List Bar) : List Bar :=
  match maxTimestamp store ticker with
  | none => store ++ df.map (toBar ticker)
  | some m => store ++ (df.map (toBar ticker)).filter (fun b => decide (m < b.ts))

/-- One row of the `past_picks` table (database.py lines 31-43); the
autoincrement id is positional and omitted. -/
structure PickRecord where
  date : String
  ticker : String
  strategy : String
  timeframe : String
  entry_price : Rat
  predicted_price : Rat
  confidence_score : Int
  signals : String
deriving DecidableEq

/-- The duplicate-check predicate of `save_pick`: equality on the
(date, ticker, timeframe, strategy) key (database.py line 54). -/
def pickKeyMatches (p q : PickRecord) : Bool :=
  p.date == q.date && p.ticker == q.ticker &&
    p.timeframe == q.timeframe && p.strategy == q.strategy

/-- Number of ledger rows sharing the key of `q`. -/
def countKey (ledger : List PickRecord) (q : PickRecord) : Nat :=
  (ledger.filter (fun p => pickKeyMatches q p)).length

/-- Embedding of `save_pick(pick_data)` (database.py lines 48-70): insert
unless a row with the same (date, ticker, timeframe, strategy) key exists;
return the new table and whether an insert occurred. -/
def save_pick (ledger : List PickRecord) (pick : PickRecord) : List PickRecord × Bool :=
  if ledger.any (fun q => pickKeyMatches pick q) then (ledger, false)
  else (ledger ++ [pick], true)

/-! ### Indicator Engine (analysis.py `calculate_metrics`) -/

/-- One input OHLCV row of the frame handed to `calculate_metrics` (loaded
from the Time-Series Store); the open column is never read and is omitted. -/
structure BarRow where
  high : Rat
  low : Rat
  close : Rat
  volume : Rat
deriving DecidableEq

/-- Modelled from the spec: the pandas_ta indicator kernels (`ta.rsi`,
`ta.macd`, `ta.adx`, `ta.bbands`, `ta.atr`) are external library code, not
part of this repository; they are abstracted as functions from the input
frame to columns of cells.  `ta.macd`, `ta.adx` and `ta.bbands` may return
`None` (the code tests for it), which is the `Option`.  `ta.sma` is modelled
concretely below (`rollingMean`), following the spec's "simple moving
averages over windows 20/50/200 bars" and "20-bar moving average of
volume". -/
structure IndicatorFns where
  rsiF : List BarRow → List PVal
  macdF : List BarRow → Option (List PVal × List PVal)
  adxF : List BarRow → Option (List PVal)
  bbF : List BarRow → Option (List PVal × List PVal)
  atrF : List BarRow → List PVal

/-- Cell access in a column, NaN beyond the end (pandas index alignment pads
missing positions with NaN). -/
def colGet (c : List PVal) (i : Nat) : PVal := c.getD i PVal.nan

/-- A column of length `n` built pointwise. -/
def mkCol (n : Nat) (f : Nat → PVal) : List PVal := (List.range n).map f

/-- An all-zero column of length `n`. -/
def zerosCol (n : Nat) : List PVal := List.replicate n (PVal.num 0)

/-- The length-`n` window of `xs` ending at index `i` (inclusive). -/
def windowAt (n : Nat) (xs : List Rat) (i : Nat) : List Rat :=
  (xs.take (i + 1)).drop (i + 1 - n)

/-- Modelled from the spec: `ta.sma(series, length=n)` is the rolling mean
with window `n` and `min_periods = n`, so the first `n - 1` cells are NaN and
cell `i` is the mean of the window ending at `i`. -/
def rollingMean (n : Nat) (xs : List Rat) : List PVal :=
  mkCol xs.length (fun i =>
    if i + 1 < n then PVal.nan
    else PVal.num ((windowAt n xs i).sum / (n : Rat)))

/-- The enriched frame produced by `calculate_metrics`: the source rows plus
the thirteen derived columns, each of the same length as the source. -/
structure Frame where
  base : List BarRow
  sma20 : List PVal
  sma50 : List PVal
  sma200 : List PVal
  adx : List PVal
  rsi : List PVal
  macd : List PVal
  macdSignal : List PVal
  bbl : List PVal
  bbu : List PVal
  volatility : List PVal
  atr : List PVal
  volSma20 : List PVal
  rvol : List PVal

/-- The thirteen derived columns of a frame, in the order of analysis.py
line 14. -/
def derivedCols (f : Frame) : List (List PVal) :=
  [f.rsi, f.macd, f.macdSignal, f.sma20, f.sma50, f.sma200, f.bbl, f.bbu,
   f.volatility, f.volSma20, f.adx, f.atr, f.rvol]

/-- Embedding of `calculate_metrics(df)` (analysis.py lines 10-76).  Under 50
bars, every derived column is the zero column (lines 12-16).  Otherwise the
columns are derived and the final `df.fillna(0, inplace=True)` replaces every
NaN cell by 0 (line 74); the input columns carry no NaN.  Two Python checks
compare a pandas Series against the `None` object (`df['BBU'] is not None
and df['BBL'] is not None` on line 51 and `df['VOL_SMA_20'] is not None` on
line 68); a Series is never the `None` object, so both checks are always
true and the modelling takes those branches unconditionally — in particular
the `RVOL = 1.0` default of line 71 is unreachable. -/
def calculate_metrics (ind : IndicatorFns) (df : List BarRow) : Frame :=
  if df.length < 50 then
    { base := df,
      sma20 := zerosCol df.length, sma50 := zerosCol df.length,
      sma200 := zerosCol df.length, adx := zerosCol df.length,
      rsi := zerosCol df.length, macd := zerosCol df.length,
      macdSignal := zerosCol df.length, bbl := zerosCol df.length,
      bbu := zerosCol df.length, volatility := zerosCol df.length,
      atr := zerosCol df.length, volSma20 := zerosCol df.length,
      rvol := zerosCol df.length }
  else
    let n := df.length
    let closes := df.map (fun b => b.close)
    let vols := df.map (fun b => b.volume)
    let sma20R := rollingMean 20 closes
    let sma50R := rollingMean 50 closes
    let sma200R := rollingMean 200 closes
    let adxR := match ind.adxF df with
      | some c2 => c2
      | none => zerosCol n
    let rsiR := ind.rsiF df
    let macdR := match ind.macdF df with
      | some p => p.1
      | none => zerosCol n
    let macdSR := match ind.macdF df with
      | some p => p.2
      | none => zerosCol n
    let bblR := match ind.bbF df with
      | some p => p.1
      | none => closes.map PVal.num
    let bbuR := match ind.bbF df with
      | some p => p.2
      | none => closes.map PVal.num
    let volaR := match ind.bbF df with
      | some p => mkCol n (fun i =>
          PVal.div (PVal.sub (colGet p.2 i) (colGet p.1 i))
            (PVal.num (closes.getD i 0)))
      | none => zerosCol n
    let atrR := ind.atrF df
    let volSmaR := rollingMean 20 vols
    let rvolR := mkCol n (fun i =>
      PVal.div (PVal.num (vols.getD i 0)) (colGet volSmaR i))
    { base := df,
      sma20 := mkCol n (fun i => fill0 (colGet sma20R i)),
      sma50 := mkCol n (fun i => fill0 (colGet sma50R i)),
      sma200 := mkCol n (fun i => fill0 (colGet sma200R i)),
      adx := mkCol n (fun i => fill0 (colGet adxR i)),
      rsi := mkCol n (fun i => fill0 (colGet rsiR i)),
      macd := mkCol n (fun i => fill0 (colGet macdR i)),
      macdSignal := mkCol n (fun i => fill0 (colGet macdSR i)),
      bbl := mkCol n (fun i => fill0 (colGet bblR i)),
      bbu := mkCol n (fun i => fill0 (colGet bbuR i)),
      volatility := mkCol n (fun i => fill0 (colGet volaR i)),
      atr := mkCol n (fun i => fill0 (colGet atrR i)),
      volSma20 := mkCol n (fun i => fill0 (colGet volSmaR i)),
      rvol := mkCol n (fun i => fill0 (colGet rvolR i)) }

/-! ### Pick Aggregator (analysis.py `get_top_picks`) -/

/-- View of an enriched frame as the list of rows read by `score_stock`:
every column exists, so every `Row` field is `some`. -/
def frameRows (f : Frame) : List Row :=
  (List.range f.base.length).map (fun i =>
    { close := some (PVal.num (((f.base.map (fun b => b.close)).getD i 0 : Rat))),
      sma50 := some (colGet f.sma50 i),
      sma200 := some (colGet f.sma200 i),
      adx := some (colGet f.adx i),
      rsi := some (colGet f.rsi i),
      macd := some (colGet f.macd i),
      macdSignal := some (colGet f.macdSignal i),
      volatility := some (colGet f.volatility i),
      rvol := some (colGet f.rvol i),
      atr := some (colGet f.atr i) })

/-- Close of the last frame row (`df.iloc[-1]['close']`), 0 on an empty frame
(unreachable: the caller skips empty frames). -/
def lastClose (df : List BarRow) : Rat :=
  ((df.getLast?).map (fun b => b.close)).getD 0

/-- Volume of the last frame row. -/
def lastVolume (df : List BarRow) : Rat :=
  ((df.getLast?).map (fun b => b.volume)).getD 0

/-- Last cell of a derived column, NaN when empty (unreachable here). -/
def lastCell (c : List PVal) : PVal := (c.getLast?).getD PVal.nan

/-- One result row of `get_top_picks` (the dict built on analysis.py lines
224-235). -/
structure PickRow where
  ticker : String
  currentPrice : Rat
  predictedPrice : PVal
  upsidePct : PVal
  confidenceScore : Int
  signals : String
  volatility : PVal
  volChange : Rat
  adx : PVal
  rvol : PVal
deriving DecidableEq

/-- The strategy pre-filter of the universe (analysis.py lines 183-187). -/
def stratFilter (strategy : String) (tickers : List String) : List String :=
  if strategy == "conservative" then
    tickers.filter (fun t => CONSERVATIVE_TICKERS.contains t || INDICES.contains t)
  else if strategy == "moonshot" then
    tickers.filter (fun t => MOONSHOT_TICKERS.contains t)
  else tickers

/-- The horizon rescale of the projected target (analysis.py lines 200-209):
multiplier 2 for week, 4 for month, 8 for quarter on the relative upside,
identity otherwise. -/
def rescaleTarget (timeframe : String) (currentPrice : Rat) (prediction : PVal) : PVal :=
  let upside_raw := PVal.div (PVal.sub prediction (PVal.num currentPrice)) (PVal.num currentPrice)
  if timeframe == "week" then
    PVal.mul (PVal.num currentPrice) (PVal.add (PVal.num 1) (PVal.mul upside_raw (PVal.num 2)))
  else if timeframe == "month" then
    PVal.mul (PVal.num currentPrice) (PVal.add (PVal.num 1) (PVal.mul upside_raw (PVal.num 4)))
  else if timeframe == "quarter" then
    PVal.mul (PVal.num currentPrice) (PVal.add (PVal.num 1) (PVal.mul upside_raw (PVal.num 8)))
  else prediction

/-- The per-ticker body of the `get_top_picks` loop (analysis.py lines
189-235): load the series (`store`), skip when empty, enrich, score, rescale
the target for the horizon, drop when under the score threshold, and build
the result row.  Rat division by a zero `currentPrice` cannot occur for
stored bars (the data model guarantees positive closes); the offending
quantities are `PVal` expressions with explicit semantics. -/
def processTicker (ind : IndicatorFns) (store : String → List BarRow)
    (timeframe strategy : String) (min_score : Int) (ticker : String) :
    Except String (Option PickRow) := do
  let df := store ticker
  if df.isEmpty then pure none
  else do
    let frame := calculate_metrics ind df
    let res ← score_stock (frameRows frame) ticker strategy
    let score := res.1
    let currentPrice := lastClose df
    let prediction := rescaleTarget timeframe currentPrice res.2.1
    if score < min_score then pure none
    else
      let volSmaLast := lastCell frame.volSma20
      let volChange : Rat :=
        match volSmaLast with
        | PVal.num v => if 0 < v then (lastVolume df - v) / v else 0
        | _ => 0
      pure (some
        { ticker := ticker,
          currentPrice := currentPrice,
          predictedPrice := prediction,
          upsidePct := PVal.mul
            (PVal.div (PVal.sub prediction (PVal.num currentPrice)) (PVal.num currentPrice))
            (PVal.num 100),
          confidenceScore := score,
          signals := String.intercalate ", " res.2.2,
          volatility := lastCell frame.volatility,
          volChange := volChange,
          adx := lastCell frame.adx,
          rvol := lastCell frame.rvol })

/-- The unsorted accumulation of result rows, in (pre-filtered) universe
order. -/
def buildResults (ind : IndicatorFns) (store : String → List BarRow)
    (timeframe strategy : String) (min_score : Int) :
    List String → Except String (List PickRow)
  | [] => Except.ok []
  | t :: ts => do
      let r ← processTicker ind store timeframe strategy min_score t
      let rest ← buildResults ind store timeframe strategy min_score ts
      match r with
      | some row => pure (row :: rest)
      | none => pure rest

/-- Insert a row below every row of score greater than or equal to its own:
the building block of the stable descending sort. -/
def insDesc (x : PickRow) : List PickRow → List PickRow
  | [] => [x]
  | y :: ys =>
      if x.confidenceScore ≤ y.confidenceScore then y :: insDesc x ys
      else x :: y :: ys

/-- Descending ordering by confidence score, standing in for
`results_df.sort_values(by='Confidence Score', ascending=False)` (analysis.py
line 239).  Modelling caveat: pandas delegates to numpy's default sort kind
(introsort), which agrees with every descending comparison sort on the
relative order of rows with distinct scores but is documented unstable, so
the order it gives rows with EQUAL scores is not specified by the source;
it coincides with the stable order used here only within numpy's small-array
insertion-sort regime (at most 16 rows).  This definition therefore fixes
the tie order to the stable one, and no theorem in this development relies
on the tie order of `sortDesc`. -/
def sortDesc (l : List PickRow) : List PickRow :=
  l.foldl (fun acc x => insDesc x acc) []

/-- Embedding of `get_top_picks(tickers, timeframe, strategy, min_score)`
(analysis.py lines 178-241): pre-filter the universe, accumulate the result
rows, sort descending by confidence score. -/
def get_top_picks (ind : IndicatorFns) (store : String → List BarRow)
    (tickers : List String) (timeframe : String) (strategy : String)
    (min_score : Int) : Except String (List PickRow) :=
  (buildResults ind store timeframe strategy min_score
    (stratFilter strategy tickers)).map sortDesc

/-! ### Concrete evaluation data -/

/-- Constant indicator kernels used for concrete evaluation: ADX 30, RSI 60,
MACD line 5 over signal 1, no Bollinger output, ATR 2. -/
def constInd : IndicatorFns :=
  { rsiF := fun df => List.replicate df.length (PVal.num 60),
    macdF := fun df => some
      (List.replicate df.length (PVal.num 5), List.replicate df.length (PVal.num 1)),
    adxF := fun df => some (List.replicate df.length (PVal.num 30)),
    bbF := fun _ => none,
    atrF := fun df => List.replicate df.length (PVal.num 2) }

/-- Fifty identical bars: close 100, volume 10. -/
def wBars : List BarRow :=
  List.replicate 50 { high := 100, low := 100, close := 100, volume := 10 }

/-- Fifty identical bars with zero volume throughout. -/
def zBars : List BarRow :=
  List.replicate 50 { high := 100, low := 100, close := 100, volume := 0 }

/-- A store holding the 50 constant bars under NVDA and nothing else. -/
def wStore : String → List BarRow :=
  fun t => if t == "NVDA" then wBars else []

/-- A malformed last row: the SMA_50 column is absent, every other interesting
column present. -/
def badRow : Row :=
  { close := some (PVal.num 100), sma50 := none, sma200 := some (PVal.num 90),
    adx := some (PVal.num 30), rsi := some (PVal.num 50),
    macd := some (PVal.num 1), macdSignal := some (PVal.num 0),
    volatility := none, rvol := none, atr := none }

/-- A well-formed last row on which every trend award fires: close 100 above
SMA50 95 above SMA200 90, ADX 30, RSI 50, low volatility, ATR 4. -/
def goodRow : Row :=
  mkRow (PVal.num 100) (PVal.num 95) (PVal.num 90) (PVal.num 30)
    (some (PVal.num 50)) (some (PVal.num 1)) (some (PVal.num 0))
    (some (PVal.num (1/50))) (some (PVal.num 1)) (some (PVal.num 4))

/-- A well-formed last row on which no trend condition fires: close 100 below
SMA50 105, ADX 22 (neither bonus nor penalty); same ATR 4. -/
def flatRow : Row :=
  mkRow (PVal.num 100) (PVal.num 105) (PVal.num 90) (PVal.num 22)
    (some (PVal.num 50)) (some (PVal.num 1)) (some (PVal.num 0))
    (some (PVal.num (1/50))) (some (PVal.num 1)) (some (PVal.num 4))

/-- A last row whose trend columns are present but whose strategy-specific
columns (RSI, MACD, volatility, RVOL, ATR) are all absent. -/
def trendOnlyRow : Row :=
  mkRow (PVal.num 100) (PVal.num 95) (PVal.num 90) (PVal.num 30)
    none none none none none none

/-- A sample ledger record. -/
def samplePick : PickRecord :=
  { date := "2026-10-12", ticker := "NVDA", strategy := "moonshot",
    timeframe := "day", entry_price := 100, predicted_price := 106,
    confidence_score := 55, signals := "Strong Momentum" }

/-- Effective ATR used by the target computation, for a cell that is either
absent or a finite number: the 2%-of-close fallback applies when the cell is
absent or zero. -/
def effAtr (ao : Option PVal) (c : Rat) : Rat :=
  match ao with
  | some (PVal.num q) => if q = 0 then c * (2/100) else q
  | _ => c * (2/100)

/-- The strategy-specific target multiplier: 3 for moonshot, 1.5 for every
other strategy. -/
def stratMult (s : String) : Rat := if s == "moonshot" then 3 else 3/2

/-- A column carries no infinity: what a finite-float indicator kernel
returns. -/
@[reducible] def noInf (c : List PVal) : Prop := ∀ v ∈ c, v ≠ PVal.pinf ∧ v ≠ PVal.ninf

/-- The result row produced for NVDA on the constant 50-bar frame under the
moonshot strategy at the month horizon. -/
def wRow : PickRow :=
  { ticker := "NVDA", currentPrice := 100, predictedPrice := PVal.num 124,
    upsidePct := PVal.num 24, confidenceScore := 55,
    signals := "Strong Trend (ADX), Strong Momentum",
    volatility := PVal.num 0, volChange := 0,
    adx := PVal.num 30, rvol := PVal.num 1 }

/-! ## Theorems -/

deriving instance DecidableEq for Except

attribute [local semireducible] Rat.add Rat.mul Rat.inv Rat.sub Rat.ofScientific

set_option maxRecDepth 16000

@[simp] theorem ok_bind {α β : Type} (a : α) (f : α → Except String β) :
    (Except.ok a >>= f) = f a := rfl

@[simp] theorem except_pure_eq_ok {α : Type} (a : α) :
    (Except.pure a : Except String α) = Except.ok a := rfl

@[simp] theorem pure_eq_ok {α : Type} (a : α) :
    (pure a : Except String α) = Except.ok a := rfl

@[simp] theorem col_some (v : PVal) (n : String) : col (some v) n = Except.ok v := rfl

@[simp] theorem col_none (n : String) :
    col none n = Except.error ("KeyError: " ++ n) := rfl

@[simp] theorem pval_add_num (a b : Rat) :
    PVal.add (PVal.num a) (PVal.num b) = PVal.num (a + b) := rfl

@[simp] theorem pval_mul_num (a b : Rat) :
    PVal.mul (PVal.num a) (PVal.num b) = PVal.num (a * b) := rfl

@[simp] theorem pval_sub_num (a b : Rat) :
    PVal.sub (PVal.num a) (PVal.num b) = PVal.num (a - b) := by
  show PVal.num (a + -b) = PVal.num (a - b)
  rw [Rat.sub_eq_add_neg]

@[simp] theorem pval_beq_num (a b : Rat) :
    PVal.beq (PVal.num a) (PVal.num b) = decide (a = b) := rfl

theorem pval_div_num (a b : Rat) (hb : b ≠ 0) :
    PVal.div (PVal.num a) (PVal.num b) = PVal.num (a / b) := by
  simp [PVal.div, hb]

theorem score_stock_eq_rowScore (rows : List Row) (r : Row) (t s : String)
    (h50 : 50 ≤ rows.length) (hl : rows.getLast? = some r) :
    score_stock rows t s = rowScore r t s := by
  unfold score_stock
  rw [if_neg (by omega), hl]

theorem rowScore_other (c s5 s2 a : PVal) (ro mo so vo rv ao : Option PVal)
    (t s : String) (hc : (s == "conservative") = false)
    (hm : (s == "moonshot") = false) :
    rowScore (mkRow c s5 s2 a ro mo so vo rv ao) t s =
      Except.ok (clamp01 (univPen c s2), finTarget c ao false, adxReasons a) := by
  unfold rowScore mkRow finishScore
  by_cases h1 : PVal.gt c s5 <;>
    simp [h1, hc, hm, zero_add]

theorem rowScore_cons_inel (c s5 s2 a : PVal) (ro mo so vo rv ao : Option PVal)
    (t : String) (h1 : t ∉ CONSERVATIVE_TICKERS) (h2 : t ∉ INDICES) :
    rowScore (mkRow c s5 s2 a ro mo so vo rv ao) t "conservative" =
      Except.ok (0, c, ["Not a conservative asset"]) := by
  unfold rowScore mkRow
  by_cases hg : PVal.gt c s5 <;>
    simp [hg, h1, h2]

theorem rowScore_moon_inel (c s5 s2 a : PVal) (ro mo so vo rv ao : Option PVal)
    (t : String) (h1 : t ∉ MOONSHOT_TICKERS) :
    rowScore (mkRow c s5 s2 a ro mo so vo rv ao) t "moonshot" =
      Except.ok (0, c, ["Not a growth asset"]) := by
  unfold rowScore mkRow
  by_cases hg : PVal.gt c s5 <;>
    simp [hg, h1]

theorem rowScore_cons_elig (c s5 s2 a r mc ms : PVal) (vo rv ao : Option PVal)
    (t : String) (hel : t ∈ CONSERVATIVE_TICKERS ∨ t ∈ INDICES) :
    rowScore (mkRow c s5 s2 a (some r) (some mc) (some ms) vo rv ao) t "conservative" =
      Except.ok
        (clamp01 ((if 20 ≤ trendScore c s5 s2 a then
            40 + consRsiAdj r + consVolAdj vo else 0) + univPen c s2),
         finTarget c ao false,
         adxReasons a ++ (if 20 ≤ trendScore c s5 s2 a then consRsiReasons r else [])) := by
  unfold rowScore mkRow finishScore trendScore
  by_cases hg : PVal.gt c s5 <;>
    rcases hel with h | h <;>
    simp [hg, h] <;>
    split_ifs <;>
    simp_all

theorem rowScore_moon_elig (c s5 s2 a r mc ms : PVal) (vo rv ao : Option PVal)
    (t : String) (hel : t ∈ MOONSHOT_TICKERS) :
    rowScore (mkRow c s5 s2 a (some r) (some mc) (some ms) vo rv ao) t "moonshot" =
      Except.ok
        (clamp01 ((if 10 ≤ trendScore c s5 s2 a then (20:Int) else 0) +
            moonRvolAdj rv + moonRsiAdj r + (if PVal.gt mc ms then (10:Int) else 0) +
            univPen c s2),
         finTarget c ao true,
         adxReasons a ++ moonRvolReasons rv ++ moonRsiReasons r) := by
  unfold rowScore mkRow finishScore trendScore
  by_cases hg : PVal.gt c s5 <;>
    simp [hg, hel]

theorem finTarget_num_false (c : Rat) (ao : Option PVal)
    (hao : ao = none ∨ ∃ q, ao = some (PVal.num q)) :
    finTarget (PVal.num c) ao false = PVal.num (c + effAtr ao c * (3/2)) := by
  rcases hao with h | ⟨q, h⟩ <;> subst h <;> unfold finTarget effAtr <;>
    simp only [Option.getD_some, Option.getD_none, pval_mul_num, pval_beq_num]
  · simp
  · by_cases hq : q = 0 <;> simp [hq]

theorem finTarget_num_true (c : Rat) (ao : Option PVal)
    (hao : ao = none ∨ ∃ q, ao = some (PVal.num q)) :
    finTarget (PVal.num c) ao true = PVal.num (c + effAtr ao c * 3) := by
  rcases hao with h | ⟨q, h⟩ <;> subst h <;> unfold finTarget effAtr <;>
    simp only [Option.getD_some, Option.getD_none, pval_mul_num, pval_beq_num]
  · simp
  · by_cases hq : q = 0 <;> simp [hq]

/-- Claim C1, counterexample.  The claim says scoring an ineligible
instrument under a restrictive strategy with a malformed IndicatorFrame
raises no exception and yields score 0.  On a 50-bar frame whose SMA_50
column is absent, scoring the ineligible ticker ZZZ under the conservative
strategy raises `KeyError` before the eligibility gate is reached, because
the trend filter reads the indicator columns first. -/
theorem C1_counterexample :
    score_stock (List.replicate 50 badRow) "ZZZ" "conservative" =
      Except.error "KeyError: SMA_50" := by
  rfl

/-- Claim C1, amended.  For an instrument that is ineligible under a
restrictive strategy, `score_stock` returns `(0, last_close,
ineligible-reason)` without executing any strategy-specific scoring — the
RSI, MACD, volatility, RVOL and ATR columns may all be absent — but only
after the insufficient-data gate and the trend filter, which reads the
close, SMA_50, SMA_200 and ADX cells of the last row; a malformed frame
missing one of those columns raises instead. -/
theorem C1_amended_thm (rows : List Row) (t : String) (c s5 s2 a : PVal)
    (ro mo so vo rv ao : Option PVal)
    (h50 : 50 ≤ rows.length)
    (hl : rows.getLast? = some (mkRow c s5 s2 a ro mo so vo rv ao)) :
    (t ∉ CONSERVATIVE_TICKERS → t ∉ INDICES →
      score_stock rows t "conservative" =
        Except.ok (0, c, ["Not a conservative asset"])) ∧
    (t ∉ MOONSHOT_TICKERS →
      score_stock rows t "moonshot" =
        Except.ok (0, c, ["Not a growth asset"])) := by
  constructor
  · intro h1 h2
    rw [score_stock_eq_rowScore rows _ t _ h50 hl]
    exact rowScore_cons_inel c s5 s2 a ro mo so vo rv ao t h1 h2
  · intro h1
    rw [score_stock_eq_rowScore rows _ t _ h50 hl]
    exact rowScore_moon_inel c s5 s2 a ro mo so vo rv ao t h1

/-- Claim C1, witness for the amended theorem: on a 50-bar frame whose last
row has only the trend columns, the ineligible ticker ZZZ short-circuits
under both restrictive strategies. -/
theorem C1_witness :
    score_stock (List.replicate 50 trendOnlyRow) "ZZZ" "conservative" =
      Except.ok (0, PVal.num 100, ["Not a conservative asset"]) ∧
    score_stock (List.replicate 50 trendOnlyRow) "ZZZ" "moonshot" =
      Except.ok (0, PVal.num 100, ["Not a growth asset"]) := by
  have h := C1_amended_thm (List.replicate 50 trendOnlyRow) "ZZZ"
    (PVal.num 100) (PVal.num 95) (PVal.num 90) (PVal.num 30)
    none none none none none none (by decide) (by decide)
  exact ⟨h.1 (by decide) (by decide), h.2 (by decide)⟩

/-- Claim C2, counterexample.  The claim says the trend awards are reflected
in the final score under every strategy.  Under the balanced strategy a
50-bar frame satisfying every trend-award condition (close 100 above SMA50
95 above SMA200 90, ADX 30 above 25) returns score 0, identical to a frame
on which no trend condition fires: the trend points are never added to the
returned score. -/
theorem C2_counterexample :
    PVal.gt (PVal.num 100) (PVal.num 95) = true ∧
    PVal.gt (PVal.num 95) (PVal.num 90) = true ∧
    PVal.gt (PVal.num 30) (PVal.num 25) = true ∧
    score_stock (List.replicate 50 goodRow) "AAPL" "balanced" =
      Except.ok (0, PVal.num 106, ["Strong Trend (ADX)"]) ∧
    score_stock (List.replicate 50 flatRow) "AAPL" "balanced" =
      Except.ok (0, PVal.num 106, []) := by
  have h1 : score_stock (List.replicate 50 goodRow) "AAPL" "balanced" =
      Except.ok (0, PVal.num 106, ["Strong Trend (ADX)"]) := rfl
  have h2 : score_stock (List.replicate 50 flatRow) "AAPL" "balanced" =
      Except.ok (0, PVal.num 106, []) := rfl
  exact ⟨rfl, rfl, rfl, h1, h2⟩

/-- Claim C2, amended.  The trend conditions accumulate in an internal
trend_score (+10 when close is above SMA50, +10 more when additionally SMA50
is above SMA200, +10 when ADX is strictly above 25, -5 when ADX is below
20), and that accumulator contributes to the returned score only by gating
fixed strategy bonuses: conservative adds 40 (plus its RSI and volatility
adjustments) exactly when trend_score reaches 20, moonshot adds 20 exactly
when it reaches 10, and under the balanced strategy the trend component
never affects the score, which consists of the universal penalty alone. -/
theorem C2_amended_thm (rows : List Row) (t : String) (c s5 s2 a r mc ms : PVal)
    (vo rv ao : Option PVal)
    (h50 : 50 ≤ rows.length)
    (hl : rows.getLast? = some (mkRow c s5 s2 a (some r) (some mc) (some ms) vo rv ao)) :
    (t ∈ CONSERVATIVE_TICKERS ∨ t ∈ INDICES →
      ∃ tp rs, score_stock rows t "conservative" =
        Except.ok
          (clamp01 ((if 20 ≤ trendScore c s5 s2 a then
              40 + consRsiAdj r + consVolAdj vo else 0) + univPen c s2), tp, rs)) ∧
    (t ∈ MOONSHOT_TICKERS →
      ∃ tp rs, score_stock rows t "moonshot" =
        Except.ok
          (clamp01 ((if 10 ≤ trendScore c s5 s2 a then (20:Int) else 0) +
              moonRvolAdj rv + moonRsiAdj r + (if PVal.gt mc ms then (10:Int) else 0) +
              univPen c s2), tp, rs)) ∧
    (∃ tp rs, score_stock rows t "balanced" =
        Except.ok (clamp01 (univPen c s2), tp, rs)) := by
  refine ⟨fun hel => ?_, fun hel => ?_, ?_⟩
  · rw [score_stock_eq_rowScore rows _ t _ h50 hl,
      rowScore_cons_elig c s5 s2 a r mc ms vo rv ao t hel]
    exact ⟨_, _, rfl⟩
  · rw [score_stock_eq_rowScore rows _ t _ h50 hl,
      rowScore_moon_elig c s5 s2 a r mc ms vo rv ao t hel]
    exact ⟨_, _, rfl⟩
  · rw [score_stock_eq_rowScore rows _ t _ h50 hl,
      rowScore_other c s5 s2 a (some r) (some mc) (some ms) vo rv ao t "balanced"
        (by decide) (by decide)]
    exact ⟨_, _, rfl⟩

/-- Claim C2, witness for the amended theorem, at the strong-trend row used
by the counterexample: conservative KO, moonshot NVDA and balanced each
return the gated score shape. -/
theorem C2_witness :
    (∃ tp rs, score_stock (List.replicate 50 goodRow) "KO" "conservative" =
      Except.ok
        (clamp01 ((if 20 ≤ trendScore (PVal.num 100) (PVal.num 95) (PVal.num 90) (PVal.num 30) then
            40 + consRsiAdj (PVal.num 50) + consVolAdj (some (PVal.num (1/50))) else 0) +
          univPen (PVal.num 100) (PVal.num 90)), tp, rs)) ∧
    (∃ tp rs, score_stock (List.replicate 50 goodRow) "NVDA" "moonshot" =
      Except.ok
        (clamp01 ((if 10 ≤ trendScore (PVal.num 100) (PVal.num 95) (PVal.num 90) (PVal.num 30) then (20:Int) else 0) +
          moonRvolAdj (some (PVal.num 1)) + moonRsiAdj (PVal.num 50) +
          (if PVal.gt (PVal.num 1) (PVal.num 0) then (10:Int) else 0) +
          univPen (PVal.num 100) (PVal.num 90)), tp, rs)) ∧
    (∃ tp rs, score_stock (List.replicate 50 goodRow) "AAPL" "balanced" =
      Except.ok (clamp01 (univPen (PVal.num 100) (PVal.num 90)), tp, rs)) := by
  refine ⟨?_, ?_, ?_⟩
  · exact (C2_amended_thm (List.replicate 50 goodRow) "KO"
      (PVal.num 100) (PVal.num 95) (PVal.num 90) (PVal.num 30) (PVal.num 50)
      (PVal.num 1) (PVal.num 0) (some (PVal.num (1/50))) (some (PVal.num 1))
      (some (PVal.num 4)) (by decide) rfl).1 (by decide)
  · exact (C2_amended_thm (List.replicate 50 goodRow) "NVDA"
      (PVal.num 100) (PVal.num 95) (PVal.num 90) (PVal.num 30) (PVal.num 50)
      (PVal.num 1) (PVal.num 0) (some (PVal.num (1/50))) (some (PVal.num 1))
      (some (PVal.num 4)) (by decide) rfl).2.1 (by decide)
  · exact (C2_amended_thm (List.replicate 50 goodRow) "AAPL"
      (PVal.num 100) (PVal.num 95) (PVal.num 90) (PVal.num 30) (PVal.num 50)
      (PVal.num 1) (PVal.num 0) (some (PVal.num (1/50))) (some (PVal.num 1))
      (some (PVal.num 4)) (by decide) rfl).2.2

/-- Claim C3: under the balanced (default) strategy, scoring any frame of at
least 50 bars whose last row carries the indicator columns returns score 0:
no strategy branch runs, so the score is the universal below-200-SMA penalty
clamped up to 0. -/
theorem C3_thm (rows : List Row) (t : String) (c s5 s2 a : PVal)
    (ro mo so vo rv ao : Option PVal)
    (h50 : 50 ≤ rows.length)
    (hl : rows.getLast? = some (mkRow c s5 s2 a ro mo so vo rv ao)) :
    ∃ tp rs, score_stock rows t "balanced" = Except.ok (0, tp, rs) := by
  rw [score_stock_eq_rowScore rows _ t _ h50 hl,
    rowScore_other c s5 s2 a ro mo so vo rv ao t "balanced" (by decide) (by decide)]
  refine ⟨finTarget c ao false, adxReasons a, ?_⟩
  rw [show clamp01 (univPen c s2) = 0 from by
    unfold univPen clamp01
    split <;> decide]

/-- Claim C3, witness: the strong-trend 50-bar frame scores 0 under the
balanced strategy. -/
theorem C3_witness :
    50 ≤ (List.replicate 50 goodRow).length ∧
    (∃ tp rs, score_stock (List.replicate 50 goodRow) "AAPL" "balanced" =
      Except.ok (0, tp, rs)) :=
  ⟨by decide, C3_thm (List.replicate 50 goodRow) "AAPL"
    (PVal.num 100) (PVal.num 95) (PVal.num 90) (PVal.num 30)
    (some (PVal.num 50)) (some (PVal.num 1)) (some (PVal.num 0))
    (some (PVal.num (1/50))) (some (PVal.num 1)) (some (PVal.num 4))
    (by decide) rfl⟩

/-- Claim C6: for a frame of at least 50 bars that passes the eligibility
gate, the base target price is close plus 3 ATR under moonshot and close
plus 1.5 ATR under every other strategy, where the effective ATR falls back
to 2% of close when the ATR cell is absent or zero. -/
theorem C6_thm (rows : List Row) (t s : String) (c : Rat) (s5 s2 a r mc ms : PVal)
    (vo rv ao : Option PVal)
    (h50 : 50 ≤ rows.length)
    (hl : rows.getLast? =
      some (mkRow (PVal.num c) s5 s2 a (some r) (some mc) (some ms) vo rv ao))
    (hao : ao = none ∨ ∃ q, ao = some (PVal.num q))
    (hcons : s = "conservative" → t ∈ CONSERVATIVE_TICKERS ∨ t ∈ INDICES)
    (hmoon : s = "moonshot" → t ∈ MOONSHOT_TICKERS) :
    ∃ sc rs, score_stock rows t s =
      Except.ok (sc, PVal.num (c + effAtr ao c * stratMult s), rs) := by
  rw [score_stock_eq_rowScore rows _ t s h50 hl]
  by_cases hc : s = "conservative"
  · subst hc
    rw [rowScore_cons_elig (PVal.num c) s5 s2 a r mc ms vo rv ao t (hcons rfl),
      show stratMult "conservative" = 3/2 from rfl,
      ← finTarget_num_false c ao hao]
    exact ⟨_, _, rfl⟩
  · by_cases hm : s = "moonshot"
    · subst hm
      rw [rowScore_moon_elig (PVal.num c) s5 s2 a r mc ms vo rv ao t (hmoon rfl),
        show stratMult "moonshot" = 3 from rfl,
        ← finTarget_num_true c ao hao]
      exact ⟨_, _, rfl⟩
    · rw [rowScore_other (PVal.num c) s5 s2 a (some r) (some mc) (some ms) vo rv ao t s
        (beq_eq_false_iff_ne.mpr hc) (beq_eq_false_iff_ne.mpr hm),
        show stratMult s = 3/2 from by
          unfold stratMult
          rw [beq_eq_false_iff_ne.mpr hm]
          rfl,
        ← finTarget_num_false c ao hao]
      exact ⟨_, _, rfl⟩

/-- Claim C6, witness: on the strong-trend frame with ATR 4 the moonshot
target is close + 3 ATR for NVDA and the conservative target is close + 1.5
ATR for KO. -/
theorem C6_witness :
    (∃ sc rs, score_stock (List.replicate 50 goodRow) "NVDA" "moonshot" =
      Except.ok (sc,
        PVal.num (100 + effAtr (some (PVal.num 4)) 100 * stratMult "moonshot"), rs)) ∧
    (∃ sc rs, score_stock (List.replicate 50 goodRow) "KO" "conservative" =
      Except.ok (sc,
        PVal.num (100 + effAtr (some (PVal.num 4)) 100 * stratMult "conservative"), rs)) :=
  ⟨C6_thm (List.replicate 50 goodRow) "NVDA" "moonshot" 100
      (PVal.num 95) (PVal.num 90) (PVal.num 30) (PVal.num 50) (PVal.num 1) (PVal.num 0)
      (some (PVal.num (1/50))) (some (PVal.num 1)) (some (PVal.num 4))
      (by decide) rfl (Or.inr ⟨4, rfl⟩)
      (fun h => absurd h (by decide)) (fun _ => by decide),
   C6_thm (List.replicate 50 goodRow) "KO" "conservative" 100
      (PVal.num 95) (PVal.num 90) (PVal.num 30) (PVal.num 50) (PVal.num 1) (PVal.num 0)
      (some (PVal.num (1/50))) (some (PVal.num 1)) (some (PVal.num 4))
      (by decide) rfl (Or.inr ⟨4, rfl⟩)
      (fun _ => Or.inl (by decide)) (fun h => absurd h (by decide))⟩

theorem foldl_max_init_le (a : Nat) (xs : List Nat) : a ≤ xs.foldl max a := by
  induction xs generalizing a with
  | nil => exact Nat.le_refl a
  | cons x xs ih => exact le_trans (Nat.le_max_left a x) (ih (max a x))

theorem foldl_max_le_of_mem {x : Nat} (a : Nat) (xs : List Nat) (hx : x ∈ xs) :
    x ≤ xs.foldl max a := by
  induction xs generalizing a with
  | nil => cases hx
  | cons y ys ih =>
    rcases List.mem_cons.mp hx with h | h
    · subst h
      exact le_trans (Nat.le_max_right a x) (foldl_max_init_le _ _)
    · exact ih _ h

theorem foldl_max_mem (a : Nat) (xs : List Nat) :
    xs.foldl max a = a ∨ xs.foldl max a ∈ xs := by
  induction xs generalizing a with
  | nil => exact Or.inl rfl
  | cons y ys ih =>
    simp only [List.foldl_cons]
    rcases ih (max a y) with h | h
    · rcases max_choice a y with h2 | h2
      · exact Or.inl (by rw [h, h2])
      · exact Or.inr (by rw [h, h2]; exact List.mem_cons_self _ _)
    · exact Or.inr (List.mem_cons_of_mem _ h)

theorem listMax_le {l : List Nat} {m x : Nat} (hm : listMax l = some m) (hx : x ∈ l) :
    x ≤ m := by
  cases l with
  | nil => cases hx
  | cons y ys =>
    injection hm with hm
    subst hm
    rcases List.mem_cons.mp hx with h | h
    · subst h
      exact foldl_max_init_le _ _
    · exact foldl_max_le_of_mem _ _ h

theorem listMax_mem {l : List Nat} {m : Nat} (hm : listMax l = some m) : m ∈ l := by
  cases l with
  | nil => cases hm
  | cons y ys =>
    injection hm with hm
    subst hm
    rcases foldl_max_mem y ys with h | h
    · rw [h]
      exact List.mem_cons_self _ _
    · exact List.mem_cons_of_mem _ h

theorem listMax_none_iff {l : List Nat} : listMax l = none ↔ l = [] := by
  cases l <;> simp [listMax]

theorem tsListOf_append (s1 s2 : List Bar) (t : String) :
    tsListOf (s1 ++ s2) t = tsListOf s1 t ++ tsListOf s2 t := by
  unfold tsListOf
  rw [List.filter_append, List.map_append]

theorem tsListOf_map_toBar (df : List RawBar) (t : String) :
    tsListOf (df.map (toBar t)) t = df.map (fun r => r.ts) := by
  induction df with
  | nil => rfl
  | cons r rs ih =>
    simp only [List.map_cons]
    unfold tsListOf at ih ⊢
    simp only [List.filter_cons]
    rw [if_pos (by simp [toBar])]
    simp only [List.map_cons]
    rw [ih]
    simp [toBar]

theorem mem_tsListOf {b : Bar} {l : List Bar} {t : String} (hb : b ∈ l)
    (ht : b.ticker = t) : b.ts ∈ tsListOf l t := by
  unfold tsListOf
  exact List.mem_map_of_mem _ (List.mem_filter.mpr ⟨hb, by simp [ht]⟩)

/-- Claim C4: the Time-Series Store append is watermark-filtered and
idempotent.  When a watermark exists, exactly the incoming rows with a
strictly greater timestamp are appended; and re-running `save_stock_data`
with the same incoming bar set is a no-op, so the second call leaves row
count and content unchanged. -/
theorem C4_thm (df : List RawBar) (t : String) (store : List Bar) :
    save_stock_data df t (save_stock_data df t store) = save_stock_data df t store ∧
    (∀ m, maxTimestamp store t = some m →
      save_stock_data df t store =
        store ++ (df.map (toBar t)).filter (fun b => decide (m < b.ts))) := by
  constructor
  · cases hmax : maxTimestamp store t with
    | none =>
      have hst : tsListOf store t = [] := listMax_none_iff.mp hmax
      have h1 : save_stock_data df t store = store ++ df.map (toBar t) := by
        unfold save_stock_data
        rw [hmax]
      cases hdf : df with
      | nil =>
        subst hdf
        have h1n : save_stock_data ([] : List RawBar) t store = store := by
          rw [h1]
          simp
        rw [h1n, h1n]
      | cons r rs =>
        subst hdf
        have hts : tsListOf (store ++ (r :: rs).map (toBar t)) t =
            r.ts :: rs.map (fun x => x.ts) := by
          rw [tsListOf_append, hst, tsListOf_map_toBar]
          rfl
        have hmax2 : maxTimestamp (store ++ (r :: rs).map (toBar t)) t =
            some ((rs.map (fun x => x.ts)).foldl max r.ts) := by
          unfold maxTimestamp
          rw [hts]
          rfl
        have hfil : ((r :: rs).map (toBar t)).filter
            (fun b => decide ((rs.map (fun x => x.ts)).foldl max r.ts < b.ts)) = [] := by
          apply List.filter_eq_nil_iff.mpr
          intro b hb
          simp only [decide_eq_true_eq, not_lt]
          apply listMax_le (l := tsListOf (store ++ (r :: rs).map (toBar t)) t)
          · rw [hts]
            rfl
          · apply mem_tsListOf (List.mem_append_right _ hb)
            rcases List.mem_map.mp hb with ⟨x, _, hx⟩
            rw [← hx]
            rfl
        calc save_stock_data (r :: rs) t (save_stock_data (r :: rs) t store)
            = save_stock_data (r :: rs) t (store ++ (r :: rs).map (toBar t)) := by
              rw [h1]
          _ = (store ++ (r :: rs).map (toBar t)) ++
                ((r :: rs).map (toBar t)).filter
                  (fun b => decide ((rs.map (fun x => x.ts)).foldl max r.ts < b.ts)) := by
              unfold save_stock_data
              rw [hmax2]
          _ = store ++ (r :: rs).map (toBar t) := by
              rw [hfil, List.append_nil]
          _ = save_stock_data (r :: rs) t store := h1.symm
    | some m =>
      have h1 : save_stock_data df t store =
          store ++ (df.map (toBar t)).filter (fun b => decide (m < b.ts)) := by
        unfold save_stock_data
        rw [hmax]
      have hstore : tsListOf store t ≠ [] := by
        intro hc
        rw [maxTimestamp, hc] at hmax
        cases hmax
      obtain ⟨y, ys, hys⟩ := List.exists_cons_of_ne_nil hstore
      set kept := (df.map (toBar t)).filter (fun b => decide (m < b.ts)) with hkept
      have hts : tsListOf (store ++ kept) t =
          y :: (ys ++ tsListOf kept t) := by
        rw [tsListOf_append, hys]
        rfl
      have hmax2 : maxTimestamp (store ++ kept) t =
          some ((ys ++ tsListOf kept t).foldl max y) := by
        unfold maxTimestamp
        rw [hts]
        rfl
      set M := (ys ++ tsListOf kept t).foldl max y with hM
      have hmem_le : ∀ x, x ∈ tsListOf (store ++ kept) t → x ≤ M :=
        fun x hx => listMax_le (by rw [maxTimestamp] at hmax2; exact hmax2) hx
      have hmM : m ≤ M := by
        apply hmem_le
        rw [tsListOf_append, hys]
        rw [← hys]
        exact List.mem_append_left _ (listMax_mem hmax)
      have hfil : (df.map (toBar t)).filter (fun b => decide (M < b.ts)) = [] := by
        apply List.filter_eq_nil_iff.mpr
        intro b hb
        simp only [decide_eq_true_eq, not_lt]
        by_cases hbm : m < b.ts
        · apply hmem_le
          rw [tsListOf_append]
          apply List.mem_append_right
          apply mem_tsListOf (List.mem_filter.mpr ⟨hb, by simp [hbm]⟩)
          rcases List.mem_map.mp hb with ⟨x, _, hx⟩
          rw [← hx]
          rfl
        · exact le_trans (Nat.le_of_not_lt hbm) hmM
      calc save_stock_data df t (save_stock_data df t store)
          = save_stock_data df t (store ++ kept) := by rw [h1]
        _ = (store ++ kept) ++ (df.map (toBar t)).filter (fun b => decide (M < b.ts)) := by
            unfold save_stock_data
            rw [hmax2]
        _ = store ++ kept := by rw [hfil, List.append_nil]
        _ = save_stock_data df t store := h1.symm
  · intro m hm
    unfold save_stock_data
    rw [hm]

/-- Claim C4, witness for the watermark conjunct: with a stored bar at
timestamp 5, only the incoming bar at timestamp 7 is appended, and a repeat
of the same call appends nothing. -/
theorem C4_witness :
    save_stock_data
        [{ ts := 5, high := 1, low := 1, close := 1, volume := 1 },
         { ts := 7, high := 2, low := 1, close := 2, volume := 3 }] "AAPL"
        [{ ticker := "AAPL", ts := 5, high := 1, low := 1, close := 1, volume := 1 }] =
      [{ ticker := "AAPL", ts := 5, high := 1, low := 1, close := 1, volume := 1 },
       { ticker := "AAPL", ts := 7, high := 2, low := 1, close := 2, volume := 3 }] := by
  have h := (C4_thm
    [{ ts := 5, high := 1, low := 1, close := 1, volume := 1 },
     { ts := 7, high := 2, low := 1, close := 2, volume := 3 }] "AAPL"
    [{ ticker := "AAPL", ts := 5, high := 1, low := 1, close := 1, volume := 1 }]).2
    5 (by decide)
  rw [h]
  decide

theorem pickKeyMatches_iff (a b : PickRecord) :
    pickKeyMatches a b = true ↔
      a.date = b.date ∧ a.ticker = b.ticker ∧
        a.timeframe = b.timeframe ∧ a.strategy = b.strategy := by
  simp [pickKeyMatches, Bool.and_eq_true, and_assoc]

theorem pickKeyMatches_self (p : PickRecord) : pickKeyMatches p p = true := by
  simp [pickKeyMatches]

/-- Claim C5: the pick ledger holds at most one record per (date, instrument,
strategy, horizon) key.  `save_pick` returns whether an insert occurred,
inserts exactly when no record with the key exists, leaves the ledger
unchanged on a duplicate key, is a no-op when called again with the same
record (so two identical calls insert exactly one record), and never raises
the per-key record count above one. -/
theorem C5_thm (l : List PickRecord) (p : PickRecord) :
    (save_pick l p).2 = !(l.any (fun q => pickKeyMatches p q)) ∧
    (l.any (fun q => pickKeyMatches p q) = true → save_pick l p = (l, false)) ∧
    (l.any (fun q => pickKeyMatches p q) = false → save_pick l p = (l ++ [p], true)) ∧
    save_pick (save_pick l p).1 p = ((save_pick l p).1, false) ∧
    (l.any (fun q => pickKeyMatches p q) = false →
      countKey (save_pick (save_pick l p).1 p).1 p = 1) ∧
    (∀ q, countKey (save_pick l p).1 q ≤ max (countKey l q) 1) := by
  by_cases h : l.any (fun q => pickKeyMatches p q) = true
  · have h2 : save_pick l p = (l, false) := by
      unfold save_pick
      rw [if_pos h]
    refine ⟨by rw [h2, h]; rfl, fun _ => h2, fun hc => absurd h (by rw [hc]; simp),
      ?_, fun hc => absurd h (by rw [hc]; simp), ?_⟩
    · rw [h2]
      exact h2
    · intro q
      rw [h2]
      exact le_max_left _ _
  · have hf : l.any (fun q => pickKeyMatches p q) = false := by
      revert h
      cases l.any (fun q => pickKeyMatches p q) <;> simp
    have hnone : ∀ b ∈ l, pickKeyMatches p b = false := by
      intro b hb
      have := List.any_eq_false.mp hf b hb
      revert this
      cases pickKeyMatches p b <;> simp
    have h2 : save_pick l p = (l ++ [p], true) := by
      unfold save_pick
      rw [if_neg (by rw [hf]; simp)]
    have hfilnil : l.filter (fun b => pickKeyMatches p b) = [] :=
      List.filter_eq_nil_iff.mpr (fun b hb => by rw [hnone b hb]; simp)
    have hany2 : (l ++ [p]).any (fun q => pickKeyMatches p q) = true := by
      rw [List.any_append]
      simp [pickKeyMatches_self]
    have h3 : save_pick (l ++ [p]) p = (l ++ [p], false) := by
      unfold save_pick
      rw [if_pos hany2]
    refine ⟨by rw [h2, hf]; rfl, fun hc => absurd hc (by rw [hf]; simp),
      fun _ => h2, by rw [h2]; exact h3, fun _ => ?_, ?_⟩
    · rw [h2, h3]
      unfold countKey
      rw [List.filter_append, hfilnil]
      simp [pickKeyMatches_self]
    · intro q
      rw [h2]
      unfold countKey
      rw [List.filter_append]
      by_cases hq : pickKeyMatches q p = true
      · have hq0 : l.filter (fun b => pickKeyMatches q b) = [] := by
          apply List.filter_eq_nil_iff.mpr
          intro b hb
          intro hqb
          have hpb : pickKeyMatches p b = true := by
            rw [pickKeyMatches_iff] at hq hqb ⊢
            obtain ⟨d1, t1, f1, s1⟩ := hq
            obtain ⟨d2, t2, f2, s2⟩ := hqb
            exact ⟨d1 ▸ d2, t1 ▸ t2, f1 ▸ f2, s1 ▸ s2⟩
          rw [hnone b hb] at hpb
          cases hpb
        rw [hq0]
        simp only [List.nil_append, List.length_append]
        have : (List.filter (fun b => pickKeyMatches q b) [p]).length ≤ 1 := by
          simp [List.filter]
          split <;> simp
        omega
      · have hq1 : List.filter (fun b => pickKeyMatches q b) [p] = [] := by
          apply List.filter_eq_nil_iff.mpr
          intro b hb
          rcases List.mem_singleton.mp hb with h
          subst h
          revert hq
          cases pickKeyMatches q b <;> simp
        rw [hq1, List.append_nil]
        exact le_max_left _ _

/-- Claim C5, witness: the sample record inserted into an empty ledger, then
reinserted: the first call inserts and returns true, the second is a no-op
returning false. -/
theorem C5_witness :
    save_pick [] samplePick = ([samplePick], true) ∧
    save_pick [samplePick] samplePick = ([samplePick], false) :=
  ⟨(C5_thm [] samplePick).2.2.1 (by decide),
   (C5_thm [samplePick] samplePick).2.1 (by decide)⟩

theorem notInf_nan : PVal.nan ≠ PVal.pinf ∧ PVal.nan ≠ PVal.ninf := by
  refine ⟨?_, ?_⟩ <;> intro h <;> cases h

theorem notInf_num (q : Rat) : PVal.num q ≠ PVal.pinf ∧ PVal.num q ≠ PVal.ninf := by
  refine ⟨?_, ?_⟩ <;> intro h <;> cases h

theorem fill0_isNum {v : PVal} (h1 : v ≠ PVal.pinf) (h2 : v ≠ PVal.ninf) :
    (fill0 v).isNum = true := by
  cases v <;> simp_all [fill0, PVal.isNum]

theorem colGet_mem_or_nan (c : List PVal) (i : Nat) :
    colGet c i ∈ c ∨ colGet c i = PVal.nan := by
  induction c generalizing i with
  | nil => exact Or.inr (by cases i <;> rfl)
  | cons x xs ih =>
    cases i with
    | zero => exact Or.inl (List.mem_cons_self _ _)
    | succ j =>
      rcases ih j with h | h
      · exact Or.inl (List.mem_cons_of_mem _ h)
      · exact Or.inr h

theorem noInf_colGet {c : List PVal} (h : noInf c) (i : Nat) :
    colGet c i ≠ PVal.pinf ∧ colGet c i ≠ PVal.ninf := by
  rcases colGet_mem_or_nan c i with hm | hm
  · exact h _ hm
  · rw [hm]
    exact notInf_nan

theorem noInf_zerosCol (n : Nat) : noInf (zerosCol n) := by
  intro v hv
  rw [List.eq_of_mem_replicate hv]
  exact notInf_num 0

theorem mem_mkCol {v : PVal} {n : Nat} {f : Nat → PVal} (h : v ∈ mkCol n f) :
    ∃ i, i < n ∧ v = f i := by
  rcases List.mem_map.mp h with ⟨i, hi, hv⟩
  exact ⟨i, List.mem_range.mp hi, hv.symm⟩

theorem colGet_mkCol {n : Nat} (f : Nat → PVal) {i : Nat} (h : i < n) :
    colGet (mkCol n f) i = f i := by
  unfold colGet mkCol
  rw [List.getD_eq_getElem?_getD, List.getElem?_map, List.getElem?_range h]
  rfl

theorem noInf_rollingMean (n : Nat) (xs : List Rat) : noInf (rollingMean n xs) := by
  intro v hv
  rcases mem_mkCol hv with ⟨i, _, hv⟩
  subst hv
  split
  · exact notInf_nan
  · exact notInf_num _

theorem noInf_map_num (xs : List Rat) : noInf (xs.map PVal.num) := by
  intro v hv
  rcases List.mem_map.mp hv with ⟨q, _, hq⟩
  subst hq
  exact notInf_num q

theorem sub_not_inf {a b : PVal} (ha : a ≠ PVal.pinf ∧ a ≠ PVal.ninf)
    (hb : b ≠ PVal.pinf ∧ b ≠ PVal.ninf) :
    PVal.sub a b ≠ PVal.pinf ∧ PVal.sub a b ≠ PVal.ninf := by
  obtain ⟨ha1, ha2⟩ := ha
  obtain ⟨hb1, hb2⟩ := hb
  cases a <;> cases b <;> simp_all [PVal.sub, PVal.add, PVal.neg]

theorem div_num_not_inf {x : PVal} {c : Rat} (hx : x ≠ PVal.pinf ∧ x ≠ PVal.ninf)
    (hc : c ≠ 0) :
    PVal.div x (PVal.num c) ≠ PVal.pinf ∧ PVal.div x (PVal.num c) ≠ PVal.ninf := by
  obtain ⟨hx1, hx2⟩ := hx
  cases x with
  | nan => exact notInf_nan
  | pinf => exact absurd rfl hx1
  | ninf => exact absurd rfl hx2
  | num a =>
    simp only [PVal.div]
    rw [if_neg hc]
    exact notInf_num _

theorem getD_mem {α : Type} (l : List α) (i : Nat) (d : α) (h : i < l.length) :
    l.getD i d ∈ l := by
  induction l generalizing i with
  | nil => cases h
  | cons x xs ih =>
    cases i with
    | zero => exact List.mem_cons_self _ _
    | succ j =>
      exact List.mem_cons_of_mem _ (ih j (by simpa using Nat.lt_of_succ_lt_succ h))

theorem sum_nonneg_all_zero {l : List Rat} (h0 : ∀ x ∈ l, 0 ≤ x) (hs : l.sum = 0) :
    ∀ x ∈ l, x = 0 := by
  induction l with
  | nil => intro x hx; cases hx
  | cons y ys ih =>
    have hy : 0 ≤ y := h0 y (List.mem_cons_self _ _)
    have hys : 0 ≤ ys.sum := List.sum_nonneg (fun x hx => h0 x (List.mem_cons_of_mem _ hx))
    rw [List.sum_cons] at hs
    have hy0 : y = 0 := by linarith
    have hsum0 : ys.sum = 0 := by linarith
    intro x hx
    rcases List.mem_cons.mp hx with h | h
    · rw [h, hy0]
    · exact ih (fun z hz => h0 z (List.mem_cons_of_mem _ hz)) hsum0 x h

theorem mem_windowAt_mem {x : Rat} {n : Nat} {xs : List Rat} {i : Nat}
    (h : x ∈ windowAt n xs i) : x ∈ xs :=
  List.mem_of_mem_take (List.mem_of_mem_drop h)

theorem getD_mem_windowAt {n : Nat} {xs : List Rat} {i : Nat}
    (hi : i < xs.length) (hn : 1 ≤ n) : xs.getD i 0 ∈ windowAt n xs i := by
  unfold windowAt
  have hj : (i + 1 - n) + (i - (i + 1 - n)) = i := by omega
  have h1 : ((xs.take (i + 1)).drop (i + 1 - n))[i - (i + 1 - n)]? = some xs[i] := by
    rw [List.getElem?_drop, hj, List.getElem?_take_of_lt (Nat.lt_succ_self i),
      List.getElem?_eq_getElem hi]
  have h2 : xs.getD i 0 = xs[i] := by
    rw [List.getD_eq_getElem?_getD, List.getElem?_eq_getElem hi]
    rfl
  rw [h2]
  exact List.getElem?_mem h1

theorem volD_zero_of_winsum_zero {df : List BarRow} {i : Nat}
    (hi : i < df.length) (hvol : ∀ b ∈ df, 0 ≤ b.volume)
    (hm : (windowAt 20 (df.map (fun b => b.volume)) i).sum / ((20 : Nat) : Rat) = 0) :
    (df.map (fun b => b.volume)).getD i 0 = 0 := by
  have hlen : i < (df.map (fun b => b.volume)).length := by
    rw [List.length_map]; exact hi
  have hsum : (windowAt 20 (df.map (fun b => b.volume)) i).sum = 0 := by
    rcases div_eq_zero_iff.mp hm with h | h
    · exact h
    · exact absurd h (by norm_num)
  have hwin0 : ∀ x ∈ windowAt 20 (df.map (fun b => b.volume)) i, x = 0 := by
    apply sum_nonneg_all_zero ?_ hsum
    intro x hx
    rcases List.mem_map.mp (mem_windowAt_mem hx) with ⟨b, hb, hbe⟩
    rw [← hbe]
    exact hvol b hb
  exact hwin0 _ (getD_mem_windowAt hlen (by norm_num))

/-- Claim C8: the Indicator Engine returns only defined values.  Under 50
bars every derived column is the zero column.  With at least 50 bars, for
positive closes and non-negative volumes, and indicator kernels that return
no infinities (they are finite-float library code), every cell of every
derived column of the returned frame is a finite number: the final fill
replaces every NaN by 0, the band-volatility division is by a positive
close, and a zero rolling volume average forces a zero numerator (the window
contains the current bar), so no infinity can be produced. -/
theorem C8_thm (ind : IndicatorFns) (df : List BarRow) :
    (df.length < 50 →
      ∀ c ∈ derivedCols (calculate_metrics ind df), c = zerosCol df.length) ∧
    (50 ≤ df.length →
      (∀ b ∈ df, 0 < b.close) →
      (∀ b ∈ df, 0 ≤ b.volume) →
      noInf (ind.rsiF df) →
      (∀ p, ind.macdF df = some p → noInf p.1 ∧ noInf p.2) →
      (∀ c2, ind.adxF df = some c2 → noInf c2) →
      (∀ p, ind.bbF df = some p → noInf p.1 ∧ noInf p.2) →
      noInf (ind.atrF df) →
      ∀ c ∈ derivedCols (calculate_metrics ind df), ∀ v ∈ c, v.isNum = true) := by
  constructor
  · intro h c hc
    unfold calculate_metrics at hc
    rw [if_pos h] at hc
    simp only [derivedCols, List.mem_cons, List.not_mem_nil, or_false] at hc
    rcases hc with rfl | rfl | rfl | rfl | rfl | rfl | rfl | rfl | rfl | rfl | rfl | rfl | rfl <;>
      rfl
  · intro h50 hclose hvol hrsi hmacd hadx hbb hatr
    have hclosed : ∀ i, i < df.length → (df.map (fun b => b.close)).getD i 0 ≠ 0 := by
      intro i hi
      have hmem : (df.map (fun b => b.close)).getD i 0 ∈ df.map (fun b => b.close) :=
        getD_mem _ i 0 (by rw [List.length_map]; exact hi)
      rcases List.mem_map.mp hmem with ⟨b, hb, hbe⟩
      rw [← hbe]
      exact ne_of_gt (hclose b hb)
    have base : ∀ (X : List PVal),
        (∀ i0 : Nat, colGet X i0 ≠ PVal.pinf ∧ colGet X i0 ≠ PVal.ninf) →
        ∀ v ∈ mkCol df.length (fun i => fill0 (colGet X i)), v.isNum = true := by
      intro X hX v hv
      rcases mem_mkCol hv with ⟨i, _, rfl⟩
      exact fill0_isNum (hX i).1 (hX i).2
    have hrvol_noInf : noInf (mkCol df.length (fun i =>
        PVal.div (PVal.num ((df.map (fun b => b.volume)).getD i 0))
          (colGet (rollingMean 20 (df.map (fun b => b.volume))) i))) := by
      intro v hv
      rcases mem_mkCol hv with ⟨i, hi, rfl⟩
      have hlen : i < (df.map (fun b => b.volume)).length := by
        rw [List.length_map]; exact hi
      rw [rollingMean, colGet_mkCol _ hlen]
      split
      · exact notInf_nan
      · rename_i hge
        by_cases hm : (windowAt 20 (df.map (fun b => b.volume)) i).sum / ((20 : Nat) : Rat) = 0
        · rw [hm, volD_zero_of_winsum_zero hi hvol hm]
          simp only [PVal.div]
          simp
        · exact div_num_not_inf (notInf_num _) hm
    rcases hA : ind.adxF df with _ | adxc <;>
      rcases hM : ind.macdF df with _ | macdp <;>
      rcases hB : ind.bbF df with _ | bbp <;>
      · intro c hc
        unfold calculate_metrics at hc
        rw [if_neg (by omega)] at hc
        simp only [hA, hM, hB, derivedCols, List.mem_cons, List.not_mem_nil, or_false] at hc
        rcases hc with rfl | rfl | rfl | rfl | rfl | rfl | rfl | rfl | rfl | rfl | rfl | rfl | rfl
        all_goals first
          | exact base _ (noInf_colGet hrsi)
          | exact base _ (noInf_colGet (noInf_zerosCol _))
          | exact base _ (noInf_colGet (noInf_rollingMean _ _))
          | exact base _ (noInf_colGet (noInf_map_num _))
          | exact base _ (noInf_colGet hatr)
          | exact base _ (noInf_colGet (hmacd _ hM).1)
          | exact base _ (noInf_colGet (hmacd _ hM).2)
          | exact base _ (noInf_colGet (hadx _ hA))
          | exact base _ (noInf_colGet (hbb _ hB).1)
          | exact base _ (noInf_colGet (hbb _ hB).2)
          | exact base _ (noInf_colGet hrvol_noInf)
          | (exact base _ (noInf_colGet (by
              intro v hv
              rcases mem_mkCol hv with ⟨i, hi, rfl⟩
              exact div_num_not_inf
                (sub_not_inf (noInf_colGet ((hbb _ hB).2) i) (noInf_colGet ((hbb _ hB).1) i))
                (hclosed i hi))))

/-- Claim C8, witness: on the 50 constant bars with the constant indicator
kernels every derived cell is a finite number, and on a 10-bar prefix every
derived column is the zero column. -/
theorem C8_witness :
    50 ≤ wBars.length ∧
    (∀ c ∈ derivedCols (calculate_metrics constInd wBars), ∀ v ∈ c, v.isNum = true) ∧
    (List.take 10 wBars).length < 50 ∧
    (∀ c ∈ derivedCols (calculate_metrics constInd (List.take 10 wBars)),
      c = zerosCol (List.take 10 wBars).length) := by
  refine ⟨by decide, ?_, by decide, (C8_thm constInd (List.take 10 wBars)).1 (by decide)⟩
  refine (C8_thm constInd wBars).2 (by decide) (by decide) (by decide) (by decide)
    ?_ ?_ ?_ (by decide)
  · intro p hp
    have h2 : some (List.replicate 50 (PVal.num 5), List.replicate 50 (PVal.num 1)) =
        some p := hp
    injection h2 with h2
    subst h2
    exact ⟨by decide, by decide⟩
  · intro c2 hc2
    have h2 : some (List.replicate 50 (PVal.num 30)) = some c2 := hc2
    injection h2 with h2
    subst h2
    exact (by decide)
  · intro p hp
    exact Option.noConfusion
      (show (none : Option (List PVal × List PVal)) = some p from hp)

/-- Claim C10, counterexample.  The claim says relative volume defaults to
1.0 whenever the 20-bar volume average is zero or unavailable.  On 50 bars of
zero volume, the average at bar 25 is exactly zero, and the returned RVOL
cell is 0, not 1: the Python `df['VOL_SMA_20'] is not None` test compares a
Series against the None object and is always true, so the 1.0 branch is dead
and the 0/0 NaN is filled with 0. -/
theorem C10_counterexample :
    colGet (rollingMean 20 (zBars.map (fun b => b.volume))) 25 = PVal.num 0 ∧
    colGet (calculate_metrics constInd zBars).rvol 25 = PVal.num 0 ∧
    PVal.num 0 ≠ PVal.num 1 := by
  refine ⟨by decide, by decide, by decide⟩

/-- Claim C10, amended.  For a frame of at least 50 bars with non-negative
volumes, the relative-volume cell equals volume divided by the 20-bar volume
average when that average is a nonzero number, and is 0 in every other case
(average unavailable in the first 19 bars, or a zero average — which forces
a zero numerator, giving a 0/0 NaN that the final fill replaces with 0); the
1.0 default of the source is unreachable. -/
theorem C10_amended_thm (ind : IndicatorFns) (df : List BarRow) (i : Nat)
    (h50 : 50 ≤ df.length) (hi : i < df.length)
    (hvol : ∀ b ∈ df, 0 ≤ b.volume) :
    colGet (calculate_metrics ind df).rvol i =
      (match colGet (rollingMean 20 (df.map (fun b => b.volume))) i with
       | PVal.num m => if m = 0 then PVal.num 0
           else PVal.num ((df.map (fun b => b.volume)).getD i 0 / m)
       | _ => PVal.num 0) := by
  have hlen : i < (df.map (fun b => b.volume)).length := by
    rw [List.length_map]; exact hi
  unfold calculate_metrics
  rw [if_neg (by omega)]
  dsimp only
  rw [colGet_mkCol _ hi]
  rw [colGet_mkCol _ hi]
  rw [rollingMean, colGet_mkCol _ hlen]
  by_cases hlt : i + 1 < 20
  · rw [if_pos hlt]
    rfl
  · rw [if_neg hlt]
    by_cases hm : (windowAt 20 (df.map (fun b => b.volume)) i).sum / ((20 : Nat) : Rat) = 0
    · rw [volD_zero_of_winsum_zero hi hvol hm, hm]
      simp [PVal.div, fill0]
    · have hs : (windowAt 20 (df.map (fun b => b.volume)) i).sum ≠ 0 := fun h => hm (by rw [h]; norm_num)
      simp [PVal.div, fill0, hs]

/-- Claim C10, witness for the amended theorem: on the 50 constant bars of
volume 10, the last RVOL cell is 10 divided by the 20-bar average 10, i.e.
1. -/
theorem C10_witness :
    colGet (calculate_metrics constInd wBars).rvol 49 = PVal.num 1 := by
  have h := C10_amended_thm constInd wBars 49 (by decide) (by decide) (by decide)
  rw [h]
  decide

theorem rescaleTarget_num (tf : String) (c p : Rat) (hc : c ≠ 0) :
    rescaleTarget tf c (PVal.num p) =
      (if tf == "week" then PVal.num (c * (1 + (p - c) / c * 2))
       else if tf == "month" then PVal.num (c * (1 + (p - c) / c * 4))
       else if tf == "quarter" then PVal.num (c * (1 + (p - c) / c * 8))
       else PVal.num p) := by
  unfold rescaleTarget
  rw [pval_sub_num, pval_div_num (p - c) c hc]
  simp only [pval_mul_num, pval_add_num]

/-- Claim C7: the Pick Aggregator rescales the relative upside, not the
absolute target.  If the per-ticker loop body produces a result row, and the
Scoring Engine returned the finite base target p, and the current close c is
positive, then the row's predicted price is c * (1 + f * m) with
f = (p - c) / c and m = 2 for week, 4 for month, 8 for quarter, and is the
base target unchanged for any other horizon (day). -/
theorem C7_thm (ind : IndicatorFns) (store : String → List BarRow)
    (tf strat : String) (ms : Int) (t : String) (row : PickRow)
    (sc : Int) (p : Rat) (rs : List String)
    (hrun : processTicker ind store tf strat ms t = Except.ok (some row))
    (hscore : score_stock (frameRows (calculate_metrics ind (store t))) t strat =
      Except.ok (sc, PVal.num p, rs))
    (hpos : 0 < lastClose (store t)) :
    row.predictedPrice =
      (if tf == "week" then
        PVal.num (lastClose (store t) *
          (1 + (p - lastClose (store t)) / lastClose (store t) * 2))
      else if tf == "month" then
        PVal.num (lastClose (store t) *
          (1 + (p - lastClose (store t)) / lastClose (store t) * 4))
      else if tf == "quarter" then
        PVal.num (lastClose (store t) *
          (1 + (p - lastClose (store t)) / lastClose (store t) * 8))
      else PVal.num p) := by
  by_cases hemp : (store t).isEmpty
  · simp [processTicker, hemp, pure, Except.pure] at hrun
  · simp only [processTicker] at hrun
    rw [if_neg hemp] at hrun
    rw [hscore] at hrun
    simp only [ok_bind] at hrun
    by_cases hlt : sc < ms
    · rw [if_pos hlt] at hrun
      simp only [pure_eq_ok, Except.ok.injEq] at hrun
      cases hrun
    · rw [if_neg hlt] at hrun
      have hrow : row.predictedPrice =
          rescaleTarget tf (lastClose (store t)) (PVal.num p) := by
        simp only [pure_eq_ok, except_pure_eq_ok, Except.ok.injEq, Option.some.injEq] at hrun
        rw [← hrun]
      rw [hrow, rescaleTarget_num tf (lastClose (store t)) p (ne_of_gt hpos)]

/-- Claim C7, witness: NVDA on the 50 constant bars under moonshot at the
month horizon gets base target 106 over close 100 (upside 6%), rescaled to
100 * (1 + 0.06 * 4) = 124. -/
theorem C7_witness :
    processTicker constInd wStore "month" "moonshot" 30 "NVDA" =
      Except.ok (some wRow) ∧
    wRow.predictedPrice = PVal.num 124 := by
  refine ⟨by decide, ?_⟩
  have h := C7_thm constInd wStore "month" "moonshot" 30 "NVDA" wRow 55 106
    ["Strong Trend (ADX)", "Strong Momentum"] (by decide) (by decide) (by decide)
  exact h.trans (by decide)

end Finstrat
